import Mathlib

/-!
Shallow embedding of the haikubot poem-composition core (haikubot/db.py and
haikubot/haiku.py).  MongoDB documents become Lean structures; the `$sample`
aggregation stage (a randomized primitive) is modelled by an oracle
`Oracle : SampleReq → List HaikuLine` constrained by `ValidOracle`, which
captures exactly the dedup-then-shuffle contract of `get_random_lines`:
the returned list is duplicate-free, drawn from the rows matching the
request's filter, of size `min sample_size |matching|`, in arbitrary order.
Python exceptions (`list.remove` raising `ValueError`) are modelled with
`Except Unit`.
-/

/-- `LinePosition` enum from db.py (values 'first' / 'last'). -/
inductive LinePosition where
  | first : LinePosition
  | last : LinePosition
deriving DecidableEq, Repr

/-- `SlackContext` dataclass from slack/slack.py. -/
structure SlackContext where
  user_id : String
  channel_id : String
  team_id : String
deriving DecidableEq, Repr

/-- `HaikuLine` dataclass from db.py.  `created` timestamps are Nat; Mongo
ObjectIds are Nat.  Rows read from the `lines` collection always carry an id. -/
structure HaikuLine where
  text : String
  syllables : Nat
  context : SlackContext
  created : Nat
  position : Option LinePosition
  id : Nat
deriving DecidableEq, Repr

/-- One embedded line of a persisted poem, as written by `Haiku.to_bson`:
only text, user_id and the source line's _id are stored. -/
structure PoemLine where
  text : String
  user_id : String
  id : Nat
deriving DecidableEq, Repr

/-- A document of the `poems` collection (shape produced by `Haiku.to_bson`). -/
structure Poem where
  lines : List PoemLine
  channel_id : String
  team_id : String
  created : Nat
deriving DecidableEq, Repr

/-- `Haiku` dataclass from db.py (as returned by `Haiku.from_lines`). -/
structure Haiku where
  lines : List HaikuLine
  context : SlackContext
  created : Nat
deriving DecidableEq, Repr

/-- `Haiku.from_lines` classmethod. -/
def Haiku.from_lines (lines : List HaikuLine) (context : SlackContext) (now : Nat) : Haiku :=
  { lines := lines, context := context, created := now }

/-- `Haiku.text` property: lines joined by newlines. -/
def Haiku.text (h : Haiku) : String :=
  String.intercalate "\n" (h.lines.map HaikuLine.text)

/-- `Haiku.to_bson`: the document inserted into the `poems` collection. -/
def haikuToPoem (h : Haiku) : Poem :=
  { lines := h.lines.map (fun l => { text := l.text, user_id := l.context.user_id, id := l.id }),
    channel_id := h.context.channel_id,
    team_id := h.context.team_id,
    created := h.created }

/-- The two MongoDB collections used by the core. -/
structure DB where
  lines : List HaikuLine
  poems : List Poem
deriving DecidableEq, Repr

/-- Python truthiness of an `Optional[str]`: `None` and `''` are falsy. -/
def optTruthy : Option String → Bool
  | none => false
  | some s => !(s = "")

/-- Case-folded character-list matching: `startsWithChars needle hay` iff
`needle` is an initial segment of `hay`. -/
def startsWithChars : List Char → List Char → Bool
  | [], _ => true
  | _ :: _, [] => false
  | a :: as, b :: bs => a = b && startsWithChars as bs

/-- `hasSub needle hay` iff `needle` occurs contiguously inside `hay`. -/
def hasSub : List Char → List Char → Bool
  | needle, [] => startsWithChars needle []
  | needle, c :: cs => startsWithChars needle (c :: cs) || hasSub needle cs

/-- Plain (case-sensitive) substring test on strings. -/
def containsStr (needle hay : String) : Bool :=
  hasSub needle.data hay.data

/-- Model of the compiled case-insensitive search pattern of
`get_random_lines`: regex-free search terms match any line whose text
contains them, ignoring case.  (Regex metacharacter behaviour is outside
the shallow embedding; search terms are treated as literals.) -/
def matchText (term text : String) : Bool :=
  hasSub (term.data.map Char.toLower) (text.data.map Char.toLower)

/-- The argument tuple of one `get_random_lines` call (the Mongo `$match`
filter plus the `$sample` size). -/
structure SampleReq where
  syllables : Nat
  team_id : String
  user_id : Option String
  search_term : Option String
  exclude_ids : List Nat
  exclude_position : Option LinePosition
  sample_size : Nat
deriving DecidableEq, Repr

/-- The `$match` filter built by `get_random_lines` (db.py lines 144-155):
syllables and team always; owner filter when `user_id` is truthy; text
search when `search_term` is truthy; `_id $nin exclude_ids`; `position $ne`
the excluded position (absent `position` fields pass the `$ne`). -/
def lineMatches (req : SampleReq) (l : HaikuLine) : Bool :=
  decide (l.syllables = req.syllables) &&
  decide (l.context.team_id = req.team_id) &&
  (match req.user_id with
   | none => true
   | some u => if u = "" then true else decide (l.context.user_id = u)) &&
  (match req.search_term with
   | none => true
   | some t => if t = "" then true else matchText t l.text) &&
  decide (l.id ∉ req.exclude_ids) &&
  (match req.exclude_position with
   | none => true
   | some p => decide (l.position ≠ some p))

/-- The rows of the `lines` collection matching a request's filter. -/
def matchingLines (db : DB) (req : SampleReq) : List HaikuLine :=
  db.lines.filter (lineMatches req)

/-- A random-sampling oracle standing for the `$sample` stage followed by the
dedup and shuffle done in `get_random_lines`. -/
abbrev Oracle := SampleReq → List HaikuLine

/-- The contract of `get_random_lines` (db.py lines 141-159): the list it
returns is duplicate-free, consists of matching rows, and has
`min sample_size |matching|` elements (order is arbitrary).  `$sample`
always yields `size` documents when at least that many match, and the
deduplication only collapses byte-identical duplicate rows. -/
def ValidOracle (db : DB) (o : Oracle) : Prop :=
  ∀ req : SampleReq,
    (o req).Nodup ∧
    (∀ l ∈ o req, l ∈ matchingLines db req) ∧
    (o req).length = min req.sample_size (matchingLines db req).length

/-- A canonical deterministic sampler satisfying `ValidOracle` (for concrete
runs): take the first `sample_size` matching rows in collection order. -/
def canonicalOracle (db : DB) : Oracle :=
  fun req => (matchingLines db req).take req.sample_size

/-- `get_random_lines` itself: builds the filter and draws from the store. -/
def get_random_lines (db : DB) (o : Oracle) (syllables : Nat) (context : SlackContext)
    (user_id : Option String) (search_term : Option String) (exclude_ids : List Nat)
    (exclude_position : Option LinePosition) (sample_size : Nat) : List HaikuLine :=
  let _ := db
  o { syllables := syllables, team_id := context.team_id, user_id := user_id,
      search_term := search_term, exclude_ids := exclude_ids,
      exclude_position := exclude_position, sample_size := sample_size }

/-- The request of the initial five-line sample (db.py lines 166-167). -/
def firstFivesReq (ctx : SlackContext) (uid st : Option String) : SampleReq :=
  { syllables := 5, team_id := ctx.team_id, user_id := uid, search_term := st,
    exclude_ids := [], exclude_position := none, sample_size := 4 }

/-- The request of the search-dropped fallback five sample (db.py 174-175). -/
def fallbackFivesReq (ctx : SlackContext) (uid : Option String) (ids : List Nat) : SampleReq :=
  { syllables := 5, team_id := ctx.team_id, user_id := uid, search_term := none,
    exclude_ids := ids, exclude_position := none, sample_size := 4 }

/-- The fresh sample excluding LAST-position lines (db.py 184-185). -/
def firstPosReq (ctx : SlackContext) (uid : Option String) : SampleReq :=
  { syllables := 5, team_id := ctx.team_id, user_id := uid, search_term := none,
    exclude_ids := [], exclude_position := some LinePosition.last, sample_size := 1 }

/-- The fresh sample excluding FIRST-position lines (db.py 196-197). -/
def lastPosReq (ctx : SlackContext) (uid : Option String) : SampleReq :=
  { syllables := 5, team_id := ctx.team_id, user_id := uid, search_term := none,
    exclude_ids := [], exclude_position := some LinePosition.first, sample_size := 1 }

/-- The request of the initial seven-line sample (db.py line 207). -/
def firstSevenReq (ctx : SlackContext) (uid st : Option String) : SampleReq :=
  { syllables := 7, team_id := ctx.team_id, user_id := uid, search_term := st,
    exclude_ids := [], exclude_position := none, sample_size := 1 }

/-- The search-dropped fallback seven sample (db.py line 211). -/
def fallbackSevenReq (ctx : SlackContext) (uid : Option String) : SampleReq :=
  { syllables := 7, team_id := ctx.team_id, user_id := uid, search_term := none,
    exclude_ids := [], exclude_position := none, sample_size := 1 }

/-- Predicate of the first-line generator expressions:
`line.position != LinePosition.LAST`. -/
def notLastB (l : HaikuLine) : Bool :=
  decide (l.position ≠ some LinePosition.last)

/-- Predicate of the last-line generator expressions:
`line.position != LinePosition.FIRST`. -/
def notFirstB (l : HaikuLine) : Bool :=
  decide (l.position ≠ some LinePosition.first)

/-- Remove the first occurrence of `y` (the effect of Python `list.remove`
when the element is present). -/
def removeFirst [DecidableEq α] : List α → α → List α
  | [], _ => []
  | x :: xs, y => if x = y then xs else x :: removeFirst xs y

/-- Python `list.remove`: drops the first occurrence, raises `ValueError`
(modelled as `Except.error ()`) when the element is absent. -/
def pyRemove [DecidableEq α] (xs : List α) (y : α) : Except Unit (List α) :=
  if y ∈ xs then Except.ok (removeFirst xs y) else Except.error ()

/-- db.py lines 189-201: pool bookkeeping after the first line is chosen
(`matching_lines.remove` guarded by membership, `lines.remove` unguarded —
raising when absent), then last-line selection: first match-pool scan, then
working-pool scan, then the exclude-FIRST fallback sample. -/
def selectFivesAfterFirst (db : DB) (o : Oracle) (ctx : SlackContext) (uid : Option String)
    (found : Bool) (matching lines : List HaikuLine) (fl : HaikuLine) :
    Except Unit (Bool × List HaikuLine) :=
  match pyRemove lines fl with
  | Except.error e => Except.error e
  | Except.ok lines1 =>
    match (if fl ∈ matching then removeFirst matching fl else matching).find? notFirstB with
    | some ll => Except.ok (found, [fl, ll])
    | none =>
      match lines1.find? notFirstB with
      | some ll => Except.ok (found, [fl, ll])
      | none =>
        match get_random_lines db o 5 ctx uid none [] (some LinePosition.first) 1 with
        | [] => Except.ok (false, [])
        | ll :: _ => Except.ok (found, [fl, ll])

/-- db.py lines 181-201: first-line selection of the five-line pass (matched
pool first, then working pool, then the exclude-LAST fallback sample),
followed by the bookkeeping-and-last-line phase. -/
def selectFives (db : DB) (o : Oracle) (ctx : SlackContext) (uid : Option String)
    (found : Bool) (matching lines : List HaikuLine) : Except Unit (Bool × List HaikuLine) :=
  match matching.find? notLastB with
  | some fl => selectFivesAfterFirst db o ctx uid found matching lines fl
  | none =>
    match lines.find? notLastB with
    | some fl => selectFivesAfterFirst db o ctx uid found matching lines fl
    | none =>
      match get_random_lines db o 5 ctx uid none [] (some LinePosition.last) 1 with
      | [] => Except.ok (false, [])
      | fl :: _ => selectFivesAfterFirst db o ctx uid found matching lines fl

/-- db.py lines 162-201: the five-line pass.  Returns
`(matchedSearchFives, [first, last])` on success, `(false, [])` on normal
failure, `Except.error ()` when the Python code would raise `ValueError`. -/
def get_random_fives (db : DB) (o : Oracle) (ctx : SlackContext)
    (user_id search_term : Option String) : Except Unit (Bool × List HaikuLine) :=
  let lines0 := get_random_lines db o 5 ctx user_id search_term [] none 4
  let found := if lines0.isEmpty then search_term.isNone else true
  let matching := if lines0.isEmpty then ([] : List HaikuLine) else lines0
  if lines0.length < 2 then
    if optTruthy search_term then
      let lines1 := lines0 ++ get_random_lines db o 5 ctx user_id none
        (lines0.map HaikuLine.id) none 4
      if lines1.length < 2 then Except.ok (false, [])
      else selectFives db o ctx user_id found matching lines1
    else Except.ok (false, [])
  else selectFives db o ctx user_id found matching lines0

/-- db.py lines 204-213: the seven-line pass.  Returns
`(matchedSearchSeven, line?)`. -/
def get_random_seven (db : DB) (o : Oracle) (ctx : SlackContext)
    (user_id search_term : Option String) : Bool × Option HaikuLine :=
  match get_random_lines db o 7 ctx user_id search_term [] none 1 with
  | l :: _ => (true, some l)
  | [] =>
    if optTruthy search_term then
      match get_random_lines db o 7 ctx user_id none [] none 1 with
      | l :: _ => (false, some l)
      | [] => (false, none)
    else (false, none)

/-- db.py lines 216-228: compose, accept/reject, persist.  `None` (no poem)
is `Except.ok (none, db)`; a raised exception is `Except.error`.  On
acceptance the poem document is appended to the `poems` collection. -/
def generate_random_haiku (db : DB) (o : Oracle) (now : Nat) (ctx : SlackContext)
    (user_id search_term : Option String) : Except Unit (Option Haiku × DB) :=
  match get_random_fives db o ctx user_id search_term with
  | Except.error e => Except.error e
  | Except.ok (f5, fives) =>
    let s7 := get_random_seven db o ctx user_id search_term
    if fives.isEmpty || s7.2.isNone || (!f5 && !s7.1) then Except.ok (none, db)
    else
      match fives, s7.2 with
      | a :: b :: _, some s =>
        let hk := Haiku.from_lines [a, s, b] ctx now
        Except.ok (some hk, { db with poems := db.poems ++ [haikuToPoem hk] })
      | _, _ => Except.error ()

/-- `SlackResponse` dataclass. -/
structure SlackResponse where
  text : String
  ephemeral : Bool
deriving DecidableEq, Repr

/-- `slack_mention` from slack.py. -/
def slack_mention (user_id : String) : String :=
  "<@" ++ user_id ++ ">"

/-- The error message of `generate_haiku` after the optional `by <user>`
clause (haiku.py lines 161-163). -/
def generate_failure_base (user_id : Option String) : String :=
  match user_id with
  | some u =>
    if u = "" then "⚠️ Failed to generate a haiku"
    else "⚠️ Failed to generate a haiku" ++ " by " ++ slack_mention u
  | none => "⚠️ Failed to generate a haiku"

/-- The error message built by `generate_haiku` (haiku.py lines 161-166):
the base, the optional `about "<term>"` clause, and the closing bang. -/
def generate_failure_message (user_id search_term : Option String) : String :=
  (match search_term with
   | some t =>
     if t = "" then generate_failure_base user_id
     else generate_failure_base user_id ++ " about \"" ++ t ++ "\""
   | none => generate_failure_base user_id) ++ "!"

/-- haiku.py lines 157-166: `generate_haiku`, the response-producing wrapper
around `generate_random_haiku`.  Threads the repository state through. -/
def generate_haiku (db : DB) (o : Oracle) (now : Nat) (ctx : SlackContext)
    (user_id search_term : Option String) : Except Unit (SlackResponse × DB) :=
  match generate_random_haiku db o now ctx user_id search_term with
  | Except.error e => Except.error e
  | Except.ok (some poem, db') => Except.ok ({ text := poem.text, ephemeral := false }, db')
  | Except.ok (none, db') =>
    Except.ok ({ text := generate_failure_message user_id search_term, ephemeral := false }, db')

/-- `get_line_key` from db.py: the (text, syllables, team_id) key filter. -/
def matchesLineKey (text : String) (syllables : Nat) (team_id : String) (l : HaikuLine) : Bool :=
  decide (l.text = text) && decide (l.syllables = syllables) &&
    decide (l.context.team_id = team_id)

/-- db.py 231-236: `add_haiku_line`.  Skips the insert (returning success)
when a row with the same key exists; otherwise inserts a fresh row. -/
def add_haiku_line (db : DB) (text : String) (syllables : Nat) (ctx : SlackContext)
    (position : Option LinePosition) (newId : Nat) (now : Nat) : Bool × DB :=
  if 0 < (db.lines.filter (matchesLineKey text syllables ctx.team_id)).length then
    (true, db)
  else
    let line : HaikuLine :=
      { text := text, syllables := syllables, context := ctx, created := now,
        position := position, id := newId }
    (true, { db with lines := db.lines ++ [line] })

/-- db.py 239-241: `remove_haiku_line`.  `delete_many` on the key; succeeds
iff the deleted count is positive. -/
def remove_haiku_line (db : DB) (text : String) (syllables : Nat) (ctx : SlackContext) :
    Bool × DB :=
  let deleted := (db.lines.filter (matchesLineKey text syllables ctx.team_id)).length
  (0 < deleted,
   { db with lines := db.lines.filter (fun l => !(matchesLineKey text syllables ctx.team_id l)) })

/-- db.py 257-260: `get_haiku_line` (`find_one` on the key: first match in
collection order). -/
def get_haiku_line (db : DB) (text : String) (syllables : Nat) (ctx : SlackContext) :
    Option HaikuLine :=
  db.lines.find? (matchesLineKey text syllables ctx.team_id)

/-- The effect of `update_one({'_id': i}, {'$set': {'user_id': u}})` on the
`lines` collection: rewrite the first row with the given id. -/
def updateFirstById : List HaikuLine → Nat → String → List HaikuLine
  | [], _, _ => []
  | l :: ls, i, u =>
    if l.id = i then { l with context := { l.context with user_id := u } } :: ls
    else l :: updateFirstById ls i u

/-- db.py 244-254: `claim_haiku_line`.  Fails when no row matches the key;
fails (modified_count = 0) when the stored owner already equals the caller;
otherwise reassigns the owner and best-effort rewrites the owner embedded in
every poem of the team whose line `_id` matches. -/
def claim_haiku_line (db : DB) (text : String) (syllables : Nat) (ctx : SlackContext) :
    Bool × DB :=
  match get_haiku_line db text syllables ctx with
  | none => (false, db)
  | some line =>
    match db.lines.find? (fun l => decide (l.id = line.id)) with
    | none => (false, db)
    | some target =>
      if target.context.user_id = ctx.user_id then (false, db)
      else
        let lines' := updateFirstById db.lines line.id ctx.user_id
        let poems' := db.poems.map (fun p =>
          if p.team_id = ctx.team_id then
            { p with lines := p.lines.map (fun pl =>
                if pl.id = line.id then { pl with user_id := ctx.user_id } else pl) }
          else p)
        (true, { db with lines := lines', poems := poems' })

/-- `HaikuStats` dataclass from db.py. -/
structure HaikuStats where
  five_syllable_lines : Nat
  seven_syllable_lines : Nat
  total_poems : Nat
  unique_users : Nat
deriving DecidableEq, Repr

/-- `HaikuStats.total_lines` property. -/
def HaikuStats.total_lines (s : HaikuStats) : Nat :=
  s.five_syllable_lines + s.seven_syllable_lines

/-- `HaikuStats.possible_combinations` property (db.py 136-138), over the
integers as in Python. -/
def HaikuStats.possible_combinations (s : HaikuStats) : Int :=
  (s.five_syllable_lines : Int) * (s.seven_syllable_lines : Int) *
    ((s.five_syllable_lines : Int) - 1)

/-- The `line_filter` of `get_haiku_stats`: team rows, optionally restricted
to one (truthy) owner. -/
def statLineFilter (ctx : SlackContext) (user_id : Option String) (l : HaikuLine) : Bool :=
  decide (l.context.team_id = ctx.team_id) &&
  (match user_id with
   | none => true
   | some u => if u = "" then true else decide (l.context.user_id = u))

/-- The `poem_filter` of `get_haiku_stats`: team poems, optionally restricted
to poems embedding at least one line by the (truthy) owner (`$elemMatch`). -/
def statPoemFilter (ctx : SlackContext) (user_id : Option String) (p : Poem) : Bool :=
  decide (p.team_id = ctx.team_id) &&
  (match user_id with
   | none => true
   | some u => if u = "" then true else p.lines.any (fun pl => decide (pl.user_id = u)))

/-- db.py 275-281: `get_haiku_stats`.  Tallies team lines (optionally
restricted to one owner) and counts team poems (optionally: poems embedding
at least one line by that owner). -/
def get_haiku_stats (db : DB) (ctx : SlackContext) (user_id : Option String) : HaikuStats :=
  let ls := db.lines.filter (statLineFilter ctx user_id)
  let ps := db.poems.filter (statPoemFilter ctx user_id)
  { five_syllable_lines := (ls.filter (fun l => decide (l.syllables = 5))).length,
    seven_syllable_lines := (ls.filter (fun l => decide (l.syllables = 7))).length,
    total_poems := ps.length,
    unique_users := (ls.map (fun l => l.context.user_id)).dedup.length }

/-! ### Concrete repositories used to exercise the definitions -/

/-- A fixed Slack context for team `T`, channel `C`, requesting user `req`. -/
def ctxT : SlackContext := { user_id := "req", channel_id := "C", team_id := "T" }

/-- Build a stored line of team `T`, channel `C`. -/
def mkLine (txt : String) (syl : Nat) (uid : String) (pos : Option LinePosition)
    (i : Nat) : HaikuLine :=
  { text := txt, syllables := syl,
    context := { user_id := uid, channel_id := "C", team_id := "T" },
    created := 0, position := pos, id := i }

/-- Repository triggering the `lines.remove(first_line)` crash: the size-4
sample can return only LAST-position five-lines while an unconstrained
five-line exists for the position-constrained fallback to return. -/
def crashDB : DB :=
  { lines := [mkLine "b1" 5 "u" (some LinePosition.last) 1,
              mkLine "b2" 5 "u" (some LinePosition.last) 2,
              mkLine "b3" 5 "u" (some LinePosition.last) 3,
              mkLine "b4" 5 "u" (some LinePosition.last) 4,
              mkLine "n" 5 "u" none 5,
              mkLine "s" 7 "u" none 6],
    poems := [] }

/-- Repository where the last-line fallback re-selects the chosen first line:
one unconstrained five-line and one FIRST-position five-line. -/
def dupDB : DB :=
  { lines := [mkLine "a" 5 "u" none 1,
              mkLine "b" 5 "u" (some LinePosition.first) 2,
              mkLine "s" 7 "u" none 7],
    poems := [] }

/-- The poem `generate_random_haiku` produces on `dupDB`: the line with id 1
appears both first and last. -/
def dupHaiku : Haiku :=
  Haiku.from_lines [mkLine "a" 5 "u" none 1, mkLine "s" 7 "u" none 7,
    mkLine "a" 5 "u" none 1] ctxT 0

/-- Repository for the `matchedSearchFives` counterexample: exactly one
five-line matches the search term `zig`; the two extra five-lines are only
reachable through the search-dropped fallback sample. -/
def zigDB : DB :=
  { lines := [mkLine "zig zag" 5 "u" none 1,
              mkLine "plain one" 5 "u" none 2,
              mkLine "plain two" 5 "u" none 3,
              mkLine "seventy" 7 "u" none 4],
    poems := [] }

/-- A healthy repository: two unconstrained five-lines and one seven-line. -/
def goodDB : DB :=
  { lines := [mkLine "five one" 5 "u" none 1,
              mkLine "five two" 5 "v" none 2,
              mkLine "seven here" 7 "w" none 3],
    poems := [] }

/-- The poem `generate_random_haiku` produces on `goodDB` with the canonical
oracle. -/
def goodHaiku : Haiku :=
  Haiku.from_lines [mkLine "five one" 5 "u" none 1, mkLine "seven here" 7 "w" none 3,
    mkLine "five two" 5 "v" none 2] ctxT 0

/-- Scenario-B style repository: one FIRST-position five, one LAST-position
five, one seven. -/
def scenarioBDB : DB :=
  { lines := [mkLine "l2" 5 "u" (some LinePosition.last) 2,
              mkLine "l1" 5 "u" (some LinePosition.first) 1,
              mkLine "l3" 7 "u" none 3],
    poems := [] }

/-- Repository refuting "owner with zero lines has total-poems 0": the
`lines` collection is empty but a persisted poem snapshot embeds owner `U`
(reachable by claim-then-remove). -/
def statsDB : DB :=
  { lines := [],
    poems := [{ lines := [{ text := "x", user_id := "U", id := 9 }],
                channel_id := "C", team_id := "T", created := 0 }] }

/-- Repository for exercising `claim_haiku_line`: a single line owned by the
requesting user `req` of `ctxT`. -/
def claimDB : DB :=
  { lines := [mkLine "mine" 5 "req" none 1], poems := [] }

/-! ### Basic facts about the sampling contract and list helpers -/

/-- Lines returned by a valid oracle satisfy the request's filter and come
from the store. -/
theorem valid_mem {db : DB} {o : Oracle} (hv : ValidOracle db o) {req : SampleReq}
    {l : HaikuLine} (h : l ∈ o req) : lineMatches req l = true ∧ l ∈ db.lines := by
  have hm := (hv req).2.1 l h
  unfold matchingLines at hm
  exact ⟨(List.mem_filter.mp hm).2, (List.mem_filter.mp hm).1⟩

/-- A line passing a request's filter has the requested syllable count. -/
theorem lineMatches_syllables {req : SampleReq} {l : HaikuLine}
    (h : lineMatches req l = true) : l.syllables = req.syllables := by
  unfold lineMatches at h
  simp only [Bool.and_eq_true, decide_eq_true_eq] at h
  exact h.1.1.1.1.1

/-- A line passing a filter with `exclude_position = some p` does not carry
position `p`. -/
theorem lineMatches_pos {req : SampleReq} {l : HaikuLine} {p : LinePosition}
    (h : lineMatches req l = true) (hp : req.exclude_position = some p) :
    l.position ≠ some p := by
  unfold lineMatches at h
  simp only [Bool.and_eq_true, decide_eq_true_eq] at h
  have := h.2
  rw [hp] at this
  simpa using this

/-- A line passing a filter with nonempty `exclude_ids` has an id outside it. -/
theorem lineMatches_exclude_ids {req : SampleReq} {l : HaikuLine}
    (h : lineMatches req l = true) : l.id ∉ req.exclude_ids := by
  unfold lineMatches at h
  simp only [Bool.and_eq_true, decide_eq_true_eq] at h
  exact h.1.2

/-- `removeFirst` only drops an element. -/
theorem removeFirst_subset {α : Type} [DecidableEq α] {xs : List α} {y l : α}
    (h : l ∈ removeFirst xs y) : l ∈ xs := by
  induction xs with
  | nil => simp [removeFirst] at h
  | cons x xs ih =>
    by_cases hxy : x = y
    · simp [removeFirst, hxy] at h
      exact List.mem_cons_of_mem _ h
    · simp [removeFirst, hxy] at h
      rcases h with h | h
      · exact h ▸ List.mem_cons_self _ _
      · exact List.mem_cons_of_mem _ (ih h)

/-- Removing `y` from a duplicate-free list removes every occurrence of `y`. -/
theorem removeFirst_nodup_not_mem {α : Type} [DecidableEq α] {xs : List α} {y : α}
    (h : xs.Nodup) : y ∉ removeFirst xs y := by
  induction xs with
  | nil => simp [removeFirst]
  | cons x xs ih =>
    by_cases hxy : x = y
    · simp [removeFirst, hxy]
      subst hxy
      exact (List.nodup_cons.mp h).1
    · simp [removeFirst, hxy]
      exact ⟨fun hc => hxy hc.symm, ih (List.nodup_cons.mp h).2⟩

/-- Characterization of a successful `pyRemove`. -/
theorem pyRemove_ok {α : Type} [DecidableEq α] {xs zs : List α} {y : α}
    (h : pyRemove xs y = Except.ok zs) : y ∈ xs ∧ zs = removeFirst xs y := by
  unfold pyRemove at h
  by_cases hm : y ∈ xs
  · simp [hm] at h
    exact ⟨hm, h.symm⟩
  · simp [hm] at h

/-- `pyRemove` raises exactly when the element is absent. -/
theorem pyRemove_error {α : Type} [DecidableEq α] {xs : List α} {y : α}
    (h : y ∉ xs) : pyRemove xs y = Except.error () := by
  simp [pyRemove, h]

/-- The canonical take-a-prefix sampler satisfies the sampling contract
whenever the stored rows are duplicate-free. -/
theorem canonical_valid (db : DB) (h : db.lines.Nodup) :
    ValidOracle db (canonicalOracle db) := by
  intro req
  refine ⟨?_, ?_, ?_⟩
  · exact List.Nodup.sublist (List.take_sublist _ _) (List.Nodup.filter _ h)
  · intro l hl
    exact (List.take_sublist _ _).subset hl
  · exact List.length_take _ _

/-- The first five sample call is the `firstFivesReq` draw. -/
theorem grl_firstFives (db : DB) (o : Oracle) (ctx : SlackContext) (uid st : Option String) :
    get_random_lines db o 5 ctx uid st [] none 4 = o (firstFivesReq ctx uid st) := rfl

/-- The search-dropped five sample call is the `fallbackFivesReq` draw. -/
theorem grl_fallbackFives (db : DB) (o : Oracle) (ctx : SlackContext) (uid : Option String)
    (ids : List Nat) :
    get_random_lines db o 5 ctx uid none ids none 4 = o (fallbackFivesReq ctx uid ids) := rfl

/-- The exclude-LAST sample call is the `firstPosReq` draw. -/
theorem grl_firstPos (db : DB) (o : Oracle) (ctx : SlackContext) (uid : Option String) :
    get_random_lines db o 5 ctx uid none [] (some LinePosition.last) 1 =
      o (firstPosReq ctx uid) := rfl

/-- The exclude-FIRST sample call is the `lastPosReq` draw. -/
theorem grl_lastPos (db : DB) (o : Oracle) (ctx : SlackContext) (uid : Option String) :
    get_random_lines db o 5 ctx uid none [] (some LinePosition.first) 1 =
      o (lastPosReq ctx uid) := rfl

/-- The first seven sample call is the `firstSevenReq` draw. -/
theorem grl_firstSeven (db : DB) (o : Oracle) (ctx : SlackContext) (uid st : Option String) :
    get_random_lines db o 7 ctx uid st [] none 1 = o (firstSevenReq ctx uid st) := rfl

/-- The search-dropped seven sample call is the `fallbackSevenReq` draw. -/
theorem grl_fallbackSeven (db : DB) (o : Oracle) (ctx : SlackContext) (uid : Option String) :
    get_random_lines db o 7 ctx uid none [] none 1 = o (fallbackSevenReq ctx uid) := rfl

/-- Case analysis of the bookkeeping-and-last-line phase: a successful return
is either the fallback-exhausted failure `(false, [])` or a pair
`[fl, ll]` whose last line comes from the shrunk matched pool, the shrunk
working pool, or the exclude-FIRST fallback draw; in the fallback case both
`find?` scans came up empty.  In every case `fl` was a member of the working
pool (otherwise `lines.remove` raises). -/
theorem afterFirst_ok {db : DB} {o : Oracle} {ctx : SlackContext} {uid : Option String}
    {found : Bool} {matching lines : List HaikuLine} {fl : HaikuLine} {f : Bool}
    {ls : List HaikuLine}
    (h : selectFivesAfterFirst db o ctx uid found matching lines fl =
      Except.ok (f, ls)) :
    fl ∈ lines ∧
    ((f = false ∧ ls = [] ∧ o (lastPosReq ctx uid) = []) ∨
     (f = found ∧ ∃ ll, ls = [fl, ll] ∧
       ((ll ∈ (if fl ∈ matching then removeFirst matching fl else matching) ∧
         notFirstB ll = true) ∨
        ((∀ x ∈ (if fl ∈ matching then removeFirst matching fl else matching),
            notFirstB x = false) ∧
         ll ∈ removeFirst lines fl ∧ notFirstB ll = true) ∨
        (ll ∈ o (lastPosReq ctx uid) ∧
         (∀ x ∈ (if fl ∈ matching then removeFirst matching fl else matching),
            notFirstB x = false) ∧
         (∀ x ∈ removeFirst lines fl, notFirstB x = false))))) := by
  unfold selectFivesAfterFirst at h
  rw [grl_lastPos] at h
  split at h
  · exact absurd h (by simp)
  · rename_i lines1 hpr
    obtain ⟨hfl, hrm⟩ := pyRemove_ok hpr
    subst hrm
    refine ⟨hfl, ?_⟩
    split at h
    · rename_i ll hfm
      simp only [Except.ok.injEq, Prod.mk.injEq] at h
      exact Or.inr ⟨h.1.symm, ll, h.2.symm,
        Or.inl ⟨List.mem_of_find?_eq_some hfm, List.find?_some hfm⟩⟩
    · rename_i hfm
      have hmAll : ∀ x ∈ (if fl ∈ matching then removeFirst matching fl else matching),
          notFirstB x = false := by
        intro x hx
        have := List.find?_eq_none.mp hfm x hx
        simpa using this
      split at h
      · rename_i ll hfn
        simp only [Except.ok.injEq, Prod.mk.injEq] at h
        exact Or.inr ⟨h.1.symm, ll, h.2.symm,
          Or.inr (Or.inl ⟨hmAll, List.mem_of_find?_eq_some hfn, List.find?_some hfn⟩)⟩
      · rename_i hfn
        have hlAll : ∀ x ∈ removeFirst lines fl, notFirstB x = false := by
          intro x hx
          have := List.find?_eq_none.mp hfn x hx
          simpa using this
        split at h
        · rename_i hor
          simp only [Except.ok.injEq, Prod.mk.injEq] at h
          exact Or.inl ⟨h.1.symm, h.2.symm, hor⟩
        · rename_i ll rest hor
          simp only [Except.ok.injEq, Prod.mk.injEq] at h
          refine Or.inr ⟨h.1.symm, ll, h.2.symm, Or.inr (Or.inr ⟨?_, hmAll, hlAll⟩)⟩
          rw [hor]
          exact List.mem_cons_self _ _

/-- Case analysis of first-line selection: a successful `selectFives` run is
either the fallback-exhausted failure, or hands a first line `fl` to the
bookkeeping phase, with `fl` drawn from the matched pool, from the working
pool (when no matched line may open a poem), or from the exclude-LAST
fallback draw (when no pooled line may open a poem). -/
theorem selectFives_ok {db : DB} {o : Oracle} {ctx : SlackContext} {uid : Option String}
    {found : Bool} {matching lines : List HaikuLine} {f : Bool} {ls : List HaikuLine}
    (h : selectFives db o ctx uid found matching lines = Except.ok (f, ls)) :
    (∃ fl, selectFivesAfterFirst db o ctx uid found matching lines fl = Except.ok (f, ls) ∧
      ((fl ∈ matching ∧ notLastB fl = true) ∨
       ((∀ x ∈ matching, notLastB x = false) ∧ fl ∈ lines ∧ notLastB fl = true) ∨
       ((∀ x ∈ matching, notLastB x = false) ∧ (∀ x ∈ lines, notLastB x = false) ∧
        fl ∈ o (firstPosReq ctx uid)))) ∨
    (f = false ∧ ls = [] ∧ (∀ x ∈ matching, notLastB x = false) ∧
     (∀ x ∈ lines, notLastB x = false) ∧ o (firstPosReq ctx uid) = []) := by
  unfold selectFives at h
  rw [grl_firstPos] at h
  split at h
  · rename_i fl hfm
    exact Or.inl ⟨fl, h,
      Or.inl ⟨List.mem_of_find?_eq_some hfm, List.find?_some hfm⟩⟩
  · rename_i hfm
    have hmAll : ∀ x ∈ matching, notLastB x = false := by
      intro x hx
      have := List.find?_eq_none.mp hfm x hx
      simpa using this
    split at h
    · rename_i fl hfn
      exact Or.inl ⟨fl, h,
        Or.inr (Or.inl ⟨hmAll, List.mem_of_find?_eq_some hfn, List.find?_some hfn⟩)⟩
    · rename_i hfn
      have hlAll : ∀ x ∈ lines, notLastB x = false := by
        intro x hx
        have := List.find?_eq_none.mp hfn x hx
        simpa using this
      split at h
      · rename_i hor
        simp only [Except.ok.injEq, Prod.mk.injEq] at h
        exact Or.inr ⟨h.1.symm, h.2.symm, hmAll, hlAll, hor⟩
      · rename_i fl rest hor
        exact Or.inl ⟨fl, h,
          Or.inr (Or.inr ⟨hmAll, hlAll, by rw [hor]; exact List.mem_cons_self _ _⟩)⟩

/-- Case analysis of the five-line pass: early failure, direct selection from
the initial sample (when it yielded at least two lines), or selection from
the sample extended by the search-dropped fallback draw. -/
theorem fives_ok_cases {db : DB} {o : Oracle} {ctx : SlackContext} {uid st : Option String}
    {f : Bool} {ls : List HaikuLine}
    (h : get_random_fives db o ctx uid st = Except.ok (f, ls)) :
    (f = false ∧ ls = []) ∨
    (¬ (o (firstFivesReq ctx uid st)).length < 2 ∧
      selectFives db o ctx uid true (o (firstFivesReq ctx uid st))
        (o (firstFivesReq ctx uid st)) = Except.ok (f, ls)) ∨
    ((o (firstFivesReq ctx uid st)).length < 2 ∧ optTruthy st = true ∧
      ¬ (o (firstFivesReq ctx uid st) ++
          o (fallbackFivesReq ctx uid ((o (firstFivesReq ctx uid st)).map HaikuLine.id))).length < 2 ∧
      selectFives db o ctx uid
        (if (o (firstFivesReq ctx uid st)).isEmpty then st.isNone else true)
        (if (o (firstFivesReq ctx uid st)).isEmpty then [] else o (firstFivesReq ctx uid st))
        (o (firstFivesReq ctx uid st) ++
          o (fallbackFivesReq ctx uid ((o (firstFivesReq ctx uid st)).map HaikuLine.id))) =
        Except.ok (f, ls)) := by
  simp only [get_random_fives] at h
  rw [grl_firstFives, grl_fallbackFives] at h
  split at h
  · rename_i hlt
    split at h
    · rename_i hst
      split at h
      · rename_i hlt2
        simp only [Except.ok.injEq, Prod.mk.injEq] at h
        exact Or.inl ⟨h.1.symm, h.2.symm⟩
      · rename_i hlt2
        exact Or.inr (Or.inr ⟨hlt, hst, hlt2, h⟩)
    · rename_i hst
      simp only [Except.ok.injEq, Prod.mk.injEq] at h
      exact Or.inl ⟨h.1.symm, h.2.symm⟩
  · rename_i hlt
    have hne : (o (firstFivesReq ctx uid st)).isEmpty = false := by
      cases hc : o (firstFivesReq ctx uid st) with
      | nil => rw [hc] at hlt; simp at hlt
      | cons a as => rfl
    rw [hne] at h
    simp only [Bool.false_eq_true, if_false] at h
    exact Or.inr (Or.inl ⟨hlt, h⟩)

/-- Case analysis of the seven-line pass: a hit on the search-constrained
draw sets the matched flag; otherwise the flag is false and the line, if
any, comes from the search-dropped fallback draw. -/
theorem seven_cases {db : DB} {o : Oracle} {ctx : SlackContext} {uid st : Option String}
    {f : Bool} {sv : Option HaikuLine}
    (h : get_random_seven db o ctx uid st = (f, sv)) :
    (∃ l rest, o (firstSevenReq ctx uid st) = l :: rest ∧ f = true ∧ sv = some l) ∨
    (o (firstSevenReq ctx uid st) = [] ∧ f = false ∧
      ((optTruthy st = true ∧ ∃ l rest, o (fallbackSevenReq ctx uid) = l :: rest ∧ sv = some l) ∨
       sv = none)) := by
  unfold get_random_seven at h
  rw [grl_firstSeven, grl_fallbackSeven] at h
  split at h
  · rename_i l rest hor
    simp only [Prod.mk.injEq] at h
    exact Or.inl ⟨l, rest, hor, h.1.symm, h.2.symm⟩
  · rename_i hor
    split at h
    · rename_i hst
      split at h
      · rename_i l rest hor2
        simp only [Prod.mk.injEq] at h
        exact Or.inr ⟨hor, h.1.symm, Or.inl ⟨hst, l, rest, hor2, h.2.symm⟩⟩
      · rename_i hor2
        simp only [Prod.mk.injEq] at h
        exact Or.inr ⟨hor, h.1.symm, Or.inr h.2.symm⟩
    · rename_i hst
      simp only [Prod.mk.injEq] at h
      exact Or.inr ⟨hor, h.1.symm, Or.inr h.2.symm⟩

/-- Decomposition of a successful generation: both passes produced lines, at
least one matched flag is set, the poem is `[first, seven, last]`, and the
poem document was appended to the `poems` collection. -/
theorem generate_ok_cases {db : DB} {o : Oracle} {now : Nat} {ctx : SlackContext}
    {uid st : Option String} {hk : Haiku} {db' : DB}
    (h : generate_random_haiku db o now ctx uid st = Except.ok (some hk, db')) :
    ∃ f5 a b rest f7 s,
      get_random_fives db o ctx uid st = Except.ok (f5, a :: b :: rest) ∧
      get_random_seven db o ctx uid st = (f7, some s) ∧
      (f5 = true ∨ f7 = true) ∧
      hk = Haiku.from_lines [a, s, b] ctx now ∧
      db' = { db with poems := db.poems ++ [haikuToPoem hk] } := by
  simp only [generate_random_haiku] at h
  rcases hfv : get_random_fives db o ctx uid st with e | p
  · rw [hfv] at h; exact absurd h (by simp)
  · obtain ⟨f5, fives⟩ := p
    rw [hfv] at h
    rcases hseven : get_random_seven db o ctx uid st with ⟨f7, sv⟩
    rw [hseven] at h
    simp only at h
    split at h
    · exact absurd h (by simp)
    · rename_i hcond
      have hflag : f5 = true ∨ f7 = true := by
        cases f5 <;> cases f7 <;> simp_all
      cases sv with
      | none => simp at hcond
      | some s =>
        cases fives with
        | nil => simp at hcond
        | cons a t =>
          cases t with
          | nil => simp at h
          | cons b r =>
            simp only [Except.ok.injEq, Prod.mk.injEq, Option.some.injEq] at h
            exact ⟨f5, a, b, r, f7, s, rfl, rfl, hflag, h.1.symm, by
              rw [← h.1]; exact h.2.symm⟩

/-- A successful non-empty `selectFives` run returns `(found, [a, b])` with
both lines 5-syllable (given 5-syllable pools) and positions honouring the
first/last constraints. -/
theorem selectFives_pair_spec {db : DB} {o : Oracle} {ctx : SlackContext}
    {uid : Option String} {found : Bool} {matching lines : List HaikuLine} {f : Bool}
    {ls : List HaikuLine} (hv : ValidOracle db o)
    (hm5 : ∀ x ∈ matching, x.syllables = 5) (hl5 : ∀ x ∈ lines, x.syllables = 5)
    (h : selectFives db o ctx uid found matching lines = Except.ok (f, ls))
    (hne : ls ≠ []) :
    ∃ a b, ls = [a, b] ∧ f = found ∧ a.syllables = 5 ∧ b.syllables = 5 ∧
      a.position ≠ some LinePosition.last ∧ b.position ≠ some LinePosition.first := by
  rcases selectFives_ok h with ⟨fl, haf, hsrc⟩ | ⟨_, hls, _⟩
  · have hfl : fl.syllables = 5 ∧ fl.position ≠ some LinePosition.last := by
      rcases hsrc with ⟨hm, hp⟩ | ⟨_, hm, hp⟩ | ⟨_, _, hm⟩
      · exact ⟨hm5 fl hm, by simpa [notLastB] using hp⟩
      · exact ⟨hl5 fl hm, by simpa [notLastB] using hp⟩
      · obtain ⟨hlm, _⟩ := valid_mem hv hm
        exact ⟨lineMatches_syllables hlm, lineMatches_pos hlm rfl⟩
    have ite_sub : ∀ x : HaikuLine,
        x ∈ (if fl ∈ matching then removeFirst matching fl else matching) → x ∈ matching := by
      intro x hx
      split at hx
      · exact removeFirst_subset hx
      · exact hx
    rcases afterFirst_ok haf with ⟨hfl_mem, hcase⟩
    rcases hcase with ⟨_, hls, _⟩ | ⟨hf, ll, hls, hll⟩
    · exact absurd hls hne
    · refine ⟨fl, ll, hls, hf, hfl.1, ?_, hfl.2, ?_⟩
      · rcases hll with ⟨hm, _⟩ | ⟨_, hm, _⟩ | ⟨hm, _, _⟩
        · exact hm5 ll (ite_sub ll hm)
        · exact hl5 ll (removeFirst_subset hm)
        · exact lineMatches_syllables (valid_mem hv hm).1
      · rcases hll with ⟨_, hp⟩ | ⟨_, _, hp⟩ | ⟨hm, _, _⟩
        · simpa [notFirstB] using hp
        · simpa [notFirstB] using hp
        · exact lineMatches_pos (valid_mem hv hm).1 rfl
  · exact absurd hls hne

/-- A successful non-empty five-line pass returns exactly two lines, both
5-syllable, first not LAST-constrained, last not FIRST-constrained, and the
matched flag equals "the initial sample was nonempty, or no search term was
given". -/
theorem fives_pair {db : DB} {o : Oracle} {ctx : SlackContext} {uid st : Option String}
    {f : Bool} {ls : List HaikuLine} (hv : ValidOracle db o)
    (h : get_random_fives db o ctx uid st = Except.ok (f, ls)) (hne : ls ≠ []) :
    ∃ a b, ls = [a, b] ∧
      f = (if (o (firstFivesReq ctx uid st)).isEmpty then st.isNone else true) ∧
      a.syllables = 5 ∧ b.syllables = 5 ∧
      a.position ≠ some LinePosition.last ∧ b.position ≠ some LinePosition.first := by
  have h5first : ∀ x ∈ o (firstFivesReq ctx uid st), x.syllables = 5 := by
    intro x hx
    exact lineMatches_syllables (valid_mem hv hx).1
  have h5fb : ∀ ids, ∀ x ∈ o (fallbackFivesReq ctx uid ids), x.syllables = 5 := by
    intro ids x hx
    exact lineMatches_syllables (valid_mem hv hx).1
  rcases fives_ok_cases h with ⟨_, hls⟩ | ⟨hlen, hsel⟩ | ⟨hlen, hst, hlen2, hsel⟩
  · exact absurd hls hne
  · have hie : (o (firstFivesReq ctx uid st)).isEmpty = false := by
      cases hc : o (firstFivesReq ctx uid st) with
      | nil => rw [hc] at hlen; simp at hlen
      | cons a as => rfl
    obtain ⟨a, b, h1, h2, h3⟩ := selectFives_pair_spec hv h5first h5first hsel hne
    exact ⟨a, b, h1, by rw [h2]; simp [hie], h3⟩
  · have hl5 : ∀ x ∈ o (firstFivesReq ctx uid st) ++
        o (fallbackFivesReq ctx uid ((o (firstFivesReq ctx uid st)).map HaikuLine.id)),
        x.syllables = 5 := by
      intro x hx
      rcases List.mem_append.mp hx with hx | hx
      · exact h5first x hx
      · exact h5fb _ x hx
    have hm5 : ∀ x ∈ (if (o (firstFivesReq ctx uid st)).isEmpty then []
        else o (firstFivesReq ctx uid st)), x.syllables = 5 := by
      intro x hx
      split at hx
      · simp at hx
      · exact h5first x hx
    obtain ⟨a, b, h1, h2, h3⟩ := selectFives_pair_spec hv hm5 hl5 hsel hne
    exact ⟨a, b, h1, h2, h3⟩

/-- A line returned by the seven-line pass is a 7-syllable row. -/
theorem seven_some_spec {db : DB} {o : Oracle} {ctx : SlackContext} {uid st : Option String}
    {f : Bool} {s : HaikuLine} (hv : ValidOracle db o)
    (h : get_random_seven db o ctx uid st = (f, some s)) : s.syllables = 7 := by
  rcases seven_cases h with ⟨l, rest, hor, _, hsv⟩ | ⟨_, _, hcase⟩
  · have hmem : s ∈ o (firstSevenReq ctx uid st) := by
      rw [hor]
      obtain rfl : s = l := by simpa using hsv
      exact List.mem_cons_self _ _
    exact lineMatches_syllables (valid_mem hv hmem).1
  · rcases hcase with ⟨_, l, rest, hor, hsv⟩ | habs
    · have hmem : s ∈ o (fallbackSevenReq ctx uid) := by
        rw [hor]
        obtain rfl : s = l := by simpa using hsv
        exact List.mem_cons_self _ _
      exact lineMatches_syllables (valid_mem hv hmem).1
    · exact absurd habs (by simp)

/-- C3: for every poem successfully returned by `generate_random_haiku`, the
syllable counts of its three lines in order are exactly [5, 7, 5], for every
repository, owner filter, search term and valid random draw. -/
theorem C3_generated_poem_is_575 (db : DB) (o : Oracle) (now : Nat) (ctx : SlackContext)
    (uid st : Option String) (hk : Haiku) (db' : DB) (hv : ValidOracle db o)
    (h : generate_random_haiku db o now ctx uid st = Except.ok (some hk, db')) :
    hk.lines.map HaikuLine.syllables = [5, 7, 5] := by
  obtain ⟨f5, a, b, rest, f7, s, hfv, hsv, _, hhk, _⟩ := generate_ok_cases h
  obtain ⟨a', b', hls, _, ha5, hb5, _, _⟩ := fives_pair hv hfv (by simp)
  have hab : a = a' ∧ b = b' := by
    constructor <;> · simp only [List.cons.injEq] at hls; tauto
  have hs7 : s.syllables = 7 := seven_some_spec hv hsv
  rw [hhk]
  simp [Haiku.from_lines, hab.1, hab.2, ha5, hb5, hs7]

/-- Witness for C3: a concrete successful generation on `goodDB`. -/
theorem C3_witness :
    generate_random_haiku goodDB (canonicalOracle goodDB) 0 ctxT none none =
      Except.ok (some goodHaiku, { goodDB with poems := [haikuToPoem goodHaiku] }) ∧
    goodHaiku.lines.map HaikuLine.syllables = [5, 7, 5] :=
  ⟨rfl, C3_generated_poem_is_575 goodDB (canonicalOracle goodDB) 0 ctxT none none goodHaiku
    { goodDB with poems := [haikuToPoem goodHaiku] }
    (canonical_valid goodDB (by decide)) rfl⟩

/-- C4: for every poem successfully returned by `generate_random_haiku`, the
first line is not LAST_ONLY-constrained and the last line is not
FIRST_ONLY-constrained, on every selection path. -/
theorem C4_position_constraints_respected (db : DB) (o : Oracle) (now : Nat)
    (ctx : SlackContext) (uid st : Option String) (hk : Haiku) (db' : DB)
    (hv : ValidOracle db o)
    (h : generate_random_haiku db o now ctx uid st = Except.ok (some hk, db')) :
    ∃ a s b, hk.lines = [a, s, b] ∧ a.position ≠ some LinePosition.last ∧
      b.position ≠ some LinePosition.first := by
  obtain ⟨f5, a, b, rest, f7, s, hfv, hsv, _, hhk, _⟩ := generate_ok_cases h
  obtain ⟨a', b', hls, _, _, _, hal, hbf⟩ := fives_pair hv hfv (by simp)
  have hab : a = a' ∧ b = b' := by
    constructor <;> · simp only [List.cons.injEq] at hls; tauto
  exact ⟨a, s, b, by rw [hhk]; rfl, hab.1 ▸ hal, hab.2 ▸ hbf⟩

/-- Witness for C4: the same concrete successful generation. -/
theorem C4_witness :
    generate_random_haiku goodDB (canonicalOracle goodDB) 0 ctxT none none =
      Except.ok (some goodHaiku, { goodDB with poems := [haikuToPoem goodHaiku] }) ∧
    ∃ a s b, goodHaiku.lines = [a, s, b] ∧ a.position ≠ some LinePosition.last ∧
      b.position ≠ some LinePosition.first :=
  ⟨rfl, C4_position_constraints_respected goodDB (canonicalOracle goodDB) 0 ctxT none none
    goodHaiku { goodDB with poems := [haikuToPoem goodHaiku] }
    (canonical_valid goodDB (by decide)) rfl⟩

/-- A failed `notLastB` test means the position is LAST. -/
theorem notLastB_false {x : HaikuLine} (h : notLastB x = false) :
    x.position = some LinePosition.last := by
  simpa [notLastB] using h

/-- A failed `notFirstB` test means the position is FIRST. -/
theorem notFirstB_false {x : HaikuLine} (h : notFirstB x = false) :
    x.position = some LinePosition.first := by
  simpa [notFirstB] using h

/-- With duplicate-free pools, the two lines a `selectFives` run returns are
distinct unless the last line came from the exclude-FIRST fallback draw. -/
theorem selectFives_distinct {db : DB} {o : Oracle} {ctx : SlackContext}
    {uid : Option String} {found : Bool} {matching lines : List HaikuLine} {f : Bool}
    {a b : HaikuLine} (hmnd : matching.Nodup) (hlnd : lines.Nodup)
    (h : selectFives db o ctx uid found matching lines = Except.ok (f, [a, b])) :
    a ≠ b ∨ b ∈ o (lastPosReq ctx uid) := by
  rcases selectFives_ok h with ⟨fl, haf, _⟩ | ⟨_, hls, _⟩
  · obtain ⟨hfl_mem, hcase⟩ := afterFirst_ok haf
    rcases hcase with ⟨_, hls, _⟩ | ⟨_, ll, hls, hll⟩
    · exact absurd hls (by simp)
    · have ha : a = fl := by simp only [List.cons.injEq] at hls; tauto
      have hb : b = ll := by simp only [List.cons.injEq] at hls; tauto
      subst ha; subst hb
      rcases hll with ⟨hm, _⟩ | ⟨_, hm, _⟩ | ⟨hm, _, _⟩
      · left
        intro hab
        rw [← hab] at hm
        by_cases hc : a ∈ matching
        · rw [if_pos hc] at hm
          exact removeFirst_nodup_not_mem hmnd hm
        · rw [if_neg hc] at hm
          exact hc hm
      · left
        intro hab
        rw [← hab] at hm
        exact removeFirst_nodup_not_mem hlnd hm
      · exact Or.inr hm
  · exact absurd hls (by simp)

/-- For every valid draw, the two lines of a successful five-line pass are
distinct rows unless the last came from the exclude-FIRST fallback draw. -/
theorem fives_distinct {db : DB} {o : Oracle} {ctx : SlackContext} {uid st : Option String}
    {f : Bool} {a b : HaikuLine} (hv : ValidOracle db o)
    (h : get_random_fives db o ctx uid st = Except.ok (f, [a, b])) :
    a ≠ b ∨ b ∈ o (lastPosReq ctx uid) := by
  have hnd1 : (o (firstFivesReq ctx uid st)).Nodup := (hv _).1
  rcases fives_ok_cases h with ⟨_, hls⟩ | ⟨_, hsel⟩ | ⟨_, _, _, hsel⟩
  · simp at hls
  · exact selectFives_distinct hnd1 hnd1 hsel
  · have hndE : (o (fallbackFivesReq ctx uid
        ((o (firstFivesReq ctx uid st)).map HaikuLine.id))).Nodup := (hv _).1
    have hnd2 : (o (firstFivesReq ctx uid st) ++
        o (fallbackFivesReq ctx uid ((o (firstFivesReq ctx uid st)).map HaikuLine.id))).Nodup := by
      rw [List.nodup_append]
      refine ⟨hnd1, hndE, ?_⟩
      intro x hx hx2
      have hnin := lineMatches_exclude_ids (valid_mem hv hx2).1
      exact hnin (List.mem_map_of_mem HaikuLine.id hx)
    have hmnd : (if (o (firstFivesReq ctx uid st)).isEmpty then ([] : List HaikuLine)
        else o (firstFivesReq ctx uid st)).Nodup := by
      split
      · exact List.nodup_nil
      · exact hnd1
    exact selectFives_distinct hmnd hnd2 hsel

/-- When the matched pool is nonempty, every successful `selectFives` run
uses at least one line of the matched pool (as first or as last line). -/
theorem selectFives_matched {db : DB} {o : Oracle} {ctx : SlackContext}
    {uid : Option String} {found : Bool} {matching lines : List HaikuLine} {f : Bool}
    {a b : HaikuLine} (hv : ValidOracle db o) (hmne : matching ≠ [])
    (h : selectFives db o ctx uid found matching lines = Except.ok (f, [a, b])) :
    a ∈ matching ∨ b ∈ matching := by
  rcases selectFives_ok h with ⟨fl, haf, hsrc⟩ | ⟨_, hls, _⟩
  · obtain ⟨hfl_mem, hcase⟩ := afterFirst_ok haf
    rcases hcase with ⟨_, hls, _⟩ | ⟨_, ll, hls, hll⟩
    · exact absurd hls (by simp)
    · have ha : a = fl := by simp only [List.cons.injEq] at hls; tauto
      have hb : b = ll := by simp only [List.cons.injEq] at hls; tauto
      subst ha; subst hb
      rcases hsrc with ⟨hm, _⟩ | ⟨hallm, _, hflpos⟩ | ⟨hallm, halll, hm⟩
      · exact Or.inl hm
      · have hfl_nm : a ∉ matching := by
          intro hc
          rw [hallm a hc] at hflpos
          exact Bool.noConfusion hflpos
        have hite : (if a ∈ matching then removeFirst matching a else matching) = matching :=
          if_neg hfl_nm
        obtain ⟨m, hmem⟩ := List.exists_mem_of_ne_nil matching hmne
        rcases hll with ⟨hm2, _⟩ | ⟨hnone, _, _⟩ | ⟨_, hnone, _⟩
        · rw [hite] at hm2
          exact Or.inr hm2
        · have h1 := notLastB_false (hallm m hmem)
          have h2 := notFirstB_false (hnone m (by rw [hite]; exact hmem))
          rw [h1] at h2
          exact absurd h2 (by simp)
        · have h1 := notLastB_false (hallm m hmem)
          have h2 := notFirstB_false (hnone m (by rw [hite]; exact hmem))
          rw [h1] at h2
          exact absurd h2 (by simp)
      · have hpos := lineMatches_pos (valid_mem hv hm).1 rfl
        exact absurd (notLastB_false (halll a hfl_mem)) hpos
  · exact absurd hls (by simp)

/-- A truthy optional string is a `some` whose payload is nonempty. -/
theorem optTruthy_isNone {st : Option String} (h : optTruthy st = true) :
    st.isNone = false := by
  cases st with
  | none => simp [optTruthy] at h
  | some s => rfl

/-- With a truthy search term and the matched flag set, at least one of the
two lines used by a successful five-line pass came from the initial
search-constrained sample. -/
theorem fives_matched {db : DB} {o : Oracle} {ctx : SlackContext} {uid st : Option String}
    {f : Bool} {a b : HaikuLine} (hv : ValidOracle db o)
    (h : get_random_fives db o ctx uid st = Except.ok (f, [a, b]))
    (hst : optTruthy st = true) (hf : f = true) :
    a ∈ o (firstFivesReq ctx uid st) ∨ b ∈ o (firstFivesReq ctx uid st) := by
  obtain ⟨a', b', hpair, hflageq, _⟩ := fives_pair hv h (by simp)
  have hL0 : (o (firstFivesReq ctx uid st)).isEmpty = false := by
    by_contra hc
    have hc' : (o (firstFivesReq ctx uid st)).isEmpty = true := by
      cases hie : (o (firstFivesReq ctx uid st)).isEmpty
      · exact absurd hie hc
      · rfl
    rw [hf, hc', if_pos rfl] at hflageq
    rw [optTruthy_isNone hst] at hflageq
    exact Bool.noConfusion hflageq
  have hne : o (firstFivesReq ctx uid st) ≠ [] := by
    intro hc
    rw [hc] at hL0
    exact Bool.noConfusion hL0
  rcases fives_ok_cases h with ⟨_, hls⟩ | ⟨_, hsel⟩ | ⟨_, _, _, hsel⟩
  · simp at hls
  · exact selectFives_matched hv hne hsel
  · rw [hL0] at hsel
    simp only [Bool.false_eq_true, if_false] at hsel
    exact selectFives_matched hv hne hsel

/-- C1 (evaluation at the failing input): on `crashDB`, with a sampler obeying
the sampling contract, the size-4 five sample returns the four LAST-position
lines, no pooled line may open the poem, the exclude-LAST fallback returns the
unconstrained line — and the unguarded `lines.remove(first_line)` then raises
`ValueError` (modelled `Except.error ()`), so `generate_random_haiku` raises
instead of returning a poem or a failure. -/
theorem C1_crash_eval :
    ValidOracle crashDB (canonicalOracle crashDB) ∧
    get_random_fives crashDB (canonicalOracle crashDB) ctxT none none =
      Except.error () ∧
    generate_random_haiku crashDB (canonicalOracle crashDB) 0 ctxT none none =
      Except.error () :=
  ⟨canonical_valid crashDB (by decide), rfl, rfl⟩

/-- C10 (counterexample): on `dupDB`, with a valid sampler, the generated poem
embeds the stored line with id 1 as both its first and its last line — the
exclude-FIRST fallback sample re-selected the already-chosen first line. -/
theorem C10_counterexample :
    ValidOracle dupDB (canonicalOracle dupDB) ∧
    generate_random_haiku dupDB (canonicalOracle dupDB) 0 ctxT none none =
      Except.ok (some dupHaiku, { dupDB with poems := [haikuToPoem dupHaiku] }) ∧
    dupHaiku.lines.map HaikuLine.id = [1, 7, 1] :=
  ⟨canonical_valid dupDB (by decide), rfl, rfl⟩

/-- C10 (amended): in every poem successfully returned by
`generate_random_haiku`, the first and last lines are distinct stored lines,
except when the last line was drawn from the exclude-FIRST fallback sample,
which carries no exclusion of already-chosen ids and may re-select the first
line. -/
theorem C10_amended_distinct (db : DB) (o : Oracle) (now : Nat) (ctx : SlackContext)
    (uid st : Option String) (hk : Haiku) (db' : DB) (hv : ValidOracle db o)
    (h : generate_random_haiku db o now ctx uid st = Except.ok (some hk, db')) :
    ∃ a s b, hk.lines = [a, s, b] ∧ (a ≠ b ∨ b ∈ o (lastPosReq ctx uid)) := by
  obtain ⟨f5, a, b, rest, f7, s, hfv, hsv, _, hhk, _⟩ := generate_ok_cases h
  obtain ⟨a', b', hls, _⟩ := fives_pair hv hfv (by simp)
  have hre : rest = [] := by
    simp only [List.cons.injEq] at hls
    tauto
  rw [hre] at hfv
  exact ⟨a, s, b, by rw [hhk]; rfl, fives_distinct hv hfv⟩

/-- Witness for the amended C10: the concrete `goodDB` run. -/
theorem C10_witness :
    generate_random_haiku goodDB (canonicalOracle goodDB) 0 ctxT none none =
      Except.ok (some goodHaiku, { goodDB with poems := [haikuToPoem goodHaiku] }) ∧
    ∃ a s b, goodHaiku.lines = [a, s, b] ∧
      (a ≠ b ∨ b ∈ canonicalOracle goodDB (lastPosReq ctxT none)) :=
  ⟨rfl, C10_amended_distinct goodDB (canonicalOracle goodDB) 0 ctxT none none goodHaiku
    { goodDB with poems := [haikuToPoem goodHaiku] }
    (canonical_valid goodDB (by decide)) rfl⟩

/-- C7 (counterexample): on `zigDB` with search term "zig", the five-line pass
succeeds with `matchedSearchFives = true`, yet the second line it uses
("plain one") is not a member of the genuine search-matched sample, which is
exactly `[zig zag]` — so the flag is not equivalent to "the fives ultimately
used came from the search-matched set". -/
theorem C7_counterexample :
    ValidOracle zigDB (canonicalOracle zigDB) ∧
    get_random_fives zigDB (canonicalOracle zigDB) ctxT none (some "zig") =
      Except.ok (true, [mkLine "zig zag" 5 "u" none 1, mkLine "plain one" 5 "u" none 2]) ∧
    canonicalOracle zigDB (firstFivesReq ctxT none (some "zig")) =
      [mkLine "zig zag" 5 "u" none 1] ∧
    ¬ mkLine "plain one" 5 "u" none 2 ∈
        canonicalOracle zigDB (firstFivesReq ctxT none (some "zig")) :=
  ⟨canonical_valid zigDB (by decide), rfl, rfl, by decide⟩

/-- C7 (amended): for every successful five-line pass, `matchedSearchFives`
is true iff no search term was given or the initial search-constrained
sample returned at least one line; moreover, whenever a truthy search term
was given and the flag is true, at least one (not necessarily both) of the
two lines used came from that search-matched sample. -/
theorem C7_amended_flag (db : DB) (o : Oracle) (ctx : SlackContext) (uid st : Option String)
    (f : Bool) (a b : HaikuLine) (hv : ValidOracle db o)
    (h : get_random_fives db o ctx uid st = Except.ok (f, [a, b])) :
    (f = true ↔ (st.isNone = true ∨ o (firstFivesReq ctx uid st) ≠ [])) ∧
    (optTruthy st = true → f = true →
      a ∈ o (firstFivesReq ctx uid st) ∨ b ∈ o (firstFivesReq ctx uid st)) := by
  obtain ⟨a', b', _, hflageq, _⟩ := fives_pair hv h (by simp)
  constructor
  · rw [hflageq]
    cases hie : (o (firstFivesReq ctx uid st)).isEmpty with
    | false =>
      have hne : o (firstFivesReq ctx uid st) ≠ [] := by
        intro hc
        rw [hc] at hie
        exact Bool.noConfusion hie
      simp [hie, hne]
    | true =>
      have heq : o (firstFivesReq ctx uid st) = [] := by
        cases hc : o (firstFivesReq ctx uid st) with
        | nil => rfl
        | cons x xs => rw [hc] at hie; exact absurd hie (by simp)
      simp [hie, heq]
  · intro hst hf
    exact fives_matched hv h hst hf

/-- Witness for the amended C7: the concrete `zigDB` run with search term
"zig". -/
theorem C7_witness :
    get_random_fives zigDB (canonicalOracle zigDB) ctxT none (some "zig") =
      Except.ok (true, [mkLine "zig zag" 5 "u" none 1, mkLine "plain one" 5 "u" none 2]) ∧
    (((true : Bool) = true ↔ ((some "zig" : Option String).isNone = true ∨
        canonicalOracle zigDB (firstFivesReq ctxT none (some "zig")) ≠ [])) ∧
     (optTruthy (some "zig") = true → (true : Bool) = true →
        mkLine "zig zag" 5 "u" none 1 ∈
          canonicalOracle zigDB (firstFivesReq ctxT none (some "zig")) ∨
        mkLine "plain one" 5 "u" none 2 ∈
          canonicalOracle zigDB (firstFivesReq ctxT none (some "zig")))) :=
  ⟨rfl, C7_amended_flag zigDB (canonicalOracle zigDB) ctxT none (some "zig") true
    (mkLine "zig zag" 5 "u" none 1) (mkLine "plain one" 5 "u" none 2)
    (canonical_valid zigDB (by decide)) rfl⟩

/-- C2: the repository-level claim operation (`claim_haiku_line`) fails when
no line matches the (text, syllables, team) key, and fails when the caller
already owns the found line (the `$set` writes the stored value, so
`modified_count` is 0); in both failure cases the store — in particular
every line's owner — is unchanged.  Assumes the Mongo `_id` uniqueness
invariant on the `lines` collection. -/
theorem C2_claim_failures (db : DB) (text : String) (syllables : Nat) (ctx : SlackContext)
    (hids : (db.lines.map HaikuLine.id).Nodup) :
    (get_haiku_line db text syllables ctx = none →
      claim_haiku_line db text syllables ctx = (false, db)) ∧
    (∀ line, get_haiku_line db text syllables ctx = some line →
      line.context.user_id = ctx.user_id →
      claim_haiku_line db text syllables ctx = (false, db)) := by
  constructor
  · intro hnone
    unfold claim_haiku_line
    rw [hnone]
  · intro line hline howner
    unfold claim_haiku_line
    rw [hline]
    have hmem : line ∈ db.lines := List.mem_of_find?_eq_some hline
    cases hf : db.lines.find? (fun l => decide (l.id = line.id)) with
    | none => simp [hf]
    | some target =>
      have htmem : target ∈ db.lines := List.mem_of_find?_eq_some hf
      have htid : target.id = line.id := by
        have := List.find?_some hf
        simpa using this
      have hteq : target = line := List.inj_on_of_nodup_map hids htmem hmem htid
      simp [hf, hteq, howner]

/-- Witness for C2: both failure modes on the concrete `claimDB`. -/
theorem C2_witness :
    get_haiku_line claimDB "other" 5 ctxT = none ∧
    claim_haiku_line claimDB "other" 5 ctxT = (false, claimDB) ∧
    get_haiku_line claimDB "mine" 5 ctxT = some (mkLine "mine" 5 "req" none 1) ∧
    claim_haiku_line claimDB "mine" 5 ctxT = (false, claimDB) :=
  ⟨rfl, (C2_claim_failures claimDB "other" 5 ctxT (by decide)).1 rfl, rfl,
    (C2_claim_failures claimDB "mine" 5 ctxT (by decide)).2
      (mkLine "mine" 5 "req" none 1) rfl rfl⟩

/-- C8 (counterexample): in `statsDB` the owner `U` has contributed zero
lines (the lines collection is empty), yet the stats snapshot for `U`
reports total-poems 1, because a persisted poem snapshot embeds `U` — so
"zero lines implies total-poems 0" is false. -/
theorem C8_counterexample :
    get_haiku_stats statsDB ctxT (some "U") =
      { five_syllable_lines := 0, seven_syllable_lines := 0, total_poems := 1,
        unique_users := 0 } :=
  rfl

/-- C8 (amended): `possible_combinations` always equals
five*seven*(five - 1); and when the filtered owner owns no line of the team
AND no persisted team poem snapshot embeds that owner, the snapshot has
five-count 0, seven-count 0, total-poems 0 and possibleCombinations 0. -/
theorem C8_amended_stats (db : DB) (ctx : SlackContext) (u : String)
    (hu : u ≠ "")
    (hl : ∀ l ∈ db.lines, l.context.team_id = ctx.team_id → l.context.user_id ≠ u)
    (hp : ∀ p ∈ db.poems, p.team_id = ctx.team_id → ∀ pl ∈ p.lines, pl.user_id ≠ u) :
    (∀ s : HaikuStats, s.possible_combinations =
      (s.five_syllable_lines : Int) * (s.seven_syllable_lines : Int) *
        ((s.five_syllable_lines : Int) - 1)) ∧
    get_haiku_stats db ctx (some u) =
      { five_syllable_lines := 0, seven_syllable_lines := 0, total_poems := 0,
        unique_users := 0 } ∧
    (get_haiku_stats db ctx (some u)).possible_combinations = 0 := by
  have hls : db.lines.filter (statLineFilter ctx (some u)) = [] := by
    rw [List.filter_eq_nil_iff]
    intro l hlm
    unfold statLineFilter
    simp only [Bool.and_eq_true, decide_eq_true_eq, if_neg hu, not_and]
    intro hteam
    intro hown
    exact hl l hlm hteam hown
  have hps : db.poems.filter (statPoemFilter ctx (some u)) = [] := by
    rw [List.filter_eq_nil_iff]
    intro p hpm
    unfold statPoemFilter
    simp only [Bool.and_eq_true, decide_eq_true_eq, if_neg hu, not_and, List.any_eq_true]
    intro hteam
    intro hc
    obtain ⟨pl, hplm, hpl⟩ := hc
    exact hp p hpm hteam pl hplm (by simpa using hpl)
  have hstats : get_haiku_stats db ctx (some u) =
      { five_syllable_lines := 0, seven_syllable_lines := 0, total_poems := 0,
        unique_users := 0 } := by
    unfold get_haiku_stats
    rw [hls, hps]
    rfl
  exact ⟨fun s => rfl, hstats, by rw [hstats]; rfl⟩

/-- Witness for the amended C8: a team with one foreign line and one foreign
poem, filtered for owner `U` who appears nowhere. -/
theorem C8_witness :
    get_haiku_stats goodDB ctxT (some "Z") =
      { five_syllable_lines := 0, seven_syllable_lines := 0, total_poems := 0,
        unique_users := 0 } ∧
    (get_haiku_stats goodDB ctxT (some "Z")).possible_combinations = 0 :=
  ⟨(C8_amended_stats goodDB ctxT "Z" (by decide) (by decide)
      (by intro p hp; simp [goodDB] at hp)).2.1,
   (C8_amended_stats goodDB ctxT "Z" (by decide) (by decide)
      (by intro p hp; simp [goodDB] at hp)).2.2⟩

/-- C9: adding a line whose (text, syllables, team) key already exists
returns success and leaves the store unchanged; remove deletes every row
matching the key and succeeds iff at least one row matched. -/
theorem C9_add_remove (db : DB) (text : String) (syllables : Nat) (ctx : SlackContext)
    (position : Option LinePosition) (newId now : Nat) :
    ((∃ l ∈ db.lines, matchesLineKey text syllables ctx.team_id l = true) →
      add_haiku_line db text syllables ctx position newId now = (true, db)) ∧
    (∀ l ∈ (remove_haiku_line db text syllables ctx).2.lines,
      matchesLineKey text syllables ctx.team_id l = false) ∧
    ((remove_haiku_line db text syllables ctx).1 = true ↔
      ∃ l ∈ db.lines, matchesLineKey text syllables ctx.team_id l = true) := by
  refine ⟨?_, ?_, ?_⟩
  · intro hex
    obtain ⟨l, hmem, hkey⟩ := hex
    unfold add_haiku_line
    have hpos : 0 < (db.lines.filter (matchesLineKey text syllables ctx.team_id)).length := by
      rw [List.length_pos]
      intro hc
      have : l ∈ db.lines.filter (matchesLineKey text syllables ctx.team_id) :=
        List.mem_filter.mpr ⟨hmem, hkey⟩
      rw [hc] at this
      exact List.not_mem_nil l this
    rw [if_pos hpos]
  · intro l hmem
    unfold remove_haiku_line at hmem
    have := (List.mem_filter.mp hmem).2
    simpa using this
  · unfold remove_haiku_line
    simp only [decide_eq_true_eq, List.length_pos]
    constructor
    · intro hne
      obtain ⟨l, hmem⟩ := List.exists_mem_of_ne_nil _ hne
      exact ⟨l, (List.mem_filter.mp hmem).1, (List.mem_filter.mp hmem).2⟩
    · intro ⟨l, hmem, hkey⟩ hc
      have : l ∈ db.lines.filter (matchesLineKey text syllables ctx.team_id) :=
        List.mem_filter.mpr ⟨hmem, hkey⟩
      rw [hc] at this
      exact List.not_mem_nil l this

/-- Witness for C9: re-adding an existing line of `goodDB` is a no-op
success, and removing it deletes the matching row and reports success. -/
theorem C9_witness :
    add_haiku_line goodDB "five one" 5 ctxT none 99 7 = (true, goodDB) ∧
    (∀ l ∈ (remove_haiku_line goodDB "five one" 5 ctxT).2.lines,
      matchesLineKey "five one" 5 ctxT.team_id l = false) ∧
    (remove_haiku_line goodDB "five one" 5 ctxT).1 = true :=
  ⟨(C9_add_remove goodDB "five one" 5 ctxT none 99 7).1 (by decide),
   (C9_add_remove goodDB "five one" 5 ctxT none 99 7).2.1,
   ((C9_add_remove goodDB "five one" 5 ctxT none 99 7).2.2).mpr (by decide)⟩

/-- A needle is always found at the head of `needle ++ post`. -/
theorem startsWithChars_self_append (needle post : List Char) :
    startsWithChars needle (needle ++ post) = true := by
  induction needle with
  | nil => rfl
  | cons a as ih => simp [startsWithChars, ih]

/-- The empty needle occurs in every haystack. -/
theorem hasSub_nil (hay : List Char) : hasSub [] hay = true := by
  cases hay with
  | nil => rfl
  | cons c cs => rfl

/-- A needle occurs in any haystack of the shape `pre ++ needle ++ post`. -/
theorem hasSub_of_middle {needle hay : List Char} (pre post : List Char)
    (h : hay = pre ++ needle ++ post) : hasSub needle hay = true := by
  subst h
  induction pre with
  | nil =>
    cases needle with
    | nil => exact hasSub_nil _
    | cons n ns =>
      have hsw := startsWithChars_self_append (n :: ns) post
      rw [List.cons_append] at hsw
      show (startsWithChars (n :: ns) (n :: (ns ++ post)) ||
        hasSub (n :: ns) (ns ++ post)) = true
      rw [hsw]
      rfl
  | cons p ps ih =>
    show (startsWithChars needle (p :: (ps ++ needle ++ post)) ||
      hasSub needle (ps ++ needle ++ post)) = true
    rw [ih]
    simp

/-- A nonempty term occurs in the `... about "<term>"!` message shape. -/
theorem contains_msg_core (w t : String) (ht : ¬t = "") :
    containsStr t ((if t = "" then w else w ++ " about \"" ++ t ++ "\"") ++ "!") = true := by
  rw [if_neg ht]
  unfold containsStr
  exact hasSub_of_middle ((w ++ " about \"").data) ("\"".data ++ "!".data)
    (by simp [String.data_append, List.append_assoc])

/-- The failure message of `generate_haiku` textually contains the search
term it was invoked with. -/
theorem contains_failure_message (uid : Option String) (t : String) :
    containsStr t (generate_failure_message uid (some t)) = true := by
  by_cases ht : t = ""
  · subst ht
    unfold containsStr
    exact hasSub_nil _
  · show containsStr t ((if t = "" then generate_failure_base uid
      else generate_failure_base uid ++ " about \"" ++ t ++ "\"") ++ "!") = true
    exact contains_msg_core (generate_failure_base uid) t ht

/-- C6: with a search term supplied, if neither pass genuinely matched it
(`matchedSearchFives = matchedSearchSeven = false`), `generate_haiku`
rejects the composition even if both passes produced lines: it returns the
failure response built from the search term (which textually names it) and
leaves the repository — in particular the poems collection — unchanged.
Conversely a successful generation implies both passes produced lines and
at least one matched flag was set. -/
theorem C6_search_acceptance (db : DB) (o : Oracle) (now : Nat) (ctx : SlackContext)
    (uid : Option String) (t : String) :
    (∀ f5 ls f7 sv, get_random_fives db o ctx uid (some t) = Except.ok (f5, ls) →
      get_random_seven db o ctx uid (some t) = (f7, sv) →
      f5 = false → f7 = false →
      generate_haiku db o now ctx uid (some t) =
        Except.ok ({ text := generate_failure_message uid (some t), ephemeral := false }, db) ∧
      containsStr t (generate_failure_message uid (some t)) = true) ∧
    (∀ hk db', generate_random_haiku db o now ctx uid (some t) = Except.ok (some hk, db') →
      ∀ f5 ls f7 sv, get_random_fives db o ctx uid (some t) = Except.ok (f5, ls) →
        get_random_seven db o ctx uid (some t) = (f7, sv) →
        ls ≠ [] ∧ sv ≠ none ∧ (f5 = true ∨ f7 = true)) := by
  constructor
  · intro f5 ls f7 sv hfv hsv hf5 hf7
    subst hf5; subst hf7
    have hgen : generate_random_haiku db o now ctx uid (some t) = Except.ok (none, db) := by
      unfold generate_random_haiku
      rw [hfv]
      simp [hsv]
    constructor
    · unfold generate_haiku
      rw [hgen]
    · exact contains_failure_message uid t
  · intro hk db' hgen f5 ls f7 sv hfv hsv
    obtain ⟨f5', a, b, rest, f7', s, hfv', hsv', hflag, _, _⟩ := generate_ok_cases hgen
    rw [hfv'] at hfv
    rw [hsv'] at hsv
    simp only [Except.ok.injEq, Prod.mk.injEq] at hfv
    simp only [Prod.mk.injEq] at hsv
    refine ⟨?_, ?_, ?_⟩
    · rw [← hfv.2]; simp
    · rw [← hsv.2]; simp
    · rw [← hfv.1, ← hsv.1]; exact hflag

/-- Witness for C6: on `goodDB` no line contains "mountain"; both passes fall
back with false flags and generation is rejected with a message naming the
term while the store stays unchanged. -/
theorem C6_witness :
    get_random_fives goodDB (canonicalOracle goodDB) ctxT none (some "mountain") =
      Except.ok (false, [mkLine "five one" 5 "u" none 1, mkLine "five two" 5 "v" none 2]) ∧
    get_random_seven goodDB (canonicalOracle goodDB) ctxT none (some "mountain") =
      (false, some (mkLine "seven here" 7 "w" none 3)) ∧
    generate_haiku goodDB (canonicalOracle goodDB) 0 ctxT none (some "mountain") =
      Except.ok
        ({ text := generate_failure_message none (some "mountain"), ephemeral := false },
          goodDB) ∧
    containsStr "mountain" (generate_failure_message none (some "mountain")) = true := by
  refine ⟨rfl, rfl, ?_, ?_⟩
  · exact ((C6_search_acceptance goodDB (canonicalOracle goodDB) 0 ctxT none "mountain").1
      false [mkLine "five one" 5 "u" none 1, mkLine "five two" 5 "v" none 2]
      false (some (mkLine "seven here" 7 "w" none 3)) rfl rfl rfl rfl).1
  · exact ((C6_search_acceptance goodDB (canonicalOracle goodDB) 0 ctxT none "mountain").1
      false [mkLine "five one" 5 "u" none 1, mkLine "five two" 5 "v" none 2]
      false (some (mkLine "seven here" 7 "w" none 3)) rfl rfl rfl rfl).2

/-- A duplicate-free two-element list over `{a, b}` is `[a, b]` or `[b, a]`. -/
theorem pair_eq {α : Type} {xs : List α} {a b : α} (hnd : xs.Nodup) (hlen : xs.length = 2)
    (hmem : ∀ x ∈ xs, x = a ∨ x = b) : xs = [a, b] ∨ xs = [b, a] := by
  cases xs with
  | nil => simp at hlen
  | cons x t =>
    cases t with
    | nil => simp at hlen
    | cons y r =>
      cases r with
      | cons z r2 => simp at hlen
      | nil =>
        have hx := hmem x (by simp)
        have hy := hmem y (by simp)
        have hxy : x ≠ y := by
          intro hc
          rw [hc] at hnd
          simp at hnd
        rcases hx with rfl | rfl <;> rcases hy with rfl | rfl
        · exact absurd rfl hxy
        · exact Or.inl rfl
        · exact Or.inr rfl
        · exact absurd rfl hxy

/-- A one-element list over `{a}` is `[a]`. -/
theorem singleton_eq {α : Type} {xs : List α} {a : α} (hlen : xs.length = 1)
    (hmem : ∀ x ∈ xs, x = a) : xs = [a] := by
  cases xs with
  | nil => simp at hlen
  | cons x t =>
    cases t with
    | cons y r => simp at hlen
    | nil => rw [hmem x (by simp)]

/-- C5 (Scenario B): if the team's stored lines are exactly one FIRST_ONLY
five `L1`, one LAST_ONLY five `L2` and one seven `L3` (in any order), then
`generate_random_haiku` with no owner filter and no search term succeeds and
returns the poem `[L1, L3, L2]` on every invocation, for every sampler
obeying the sampling contract — i.e. deterministically. -/
theorem C5_scenario_b (db : DB) (o : Oracle) (now : Nat) (ctx : SlackContext)
    (L1 L2 L3 : HaikuLine) (hv : ValidOracle db o)
    (hperm : (db.lines.filter (fun l => decide (l.context.team_id = ctx.team_id))).Perm
      [L1, L2, L3])
    (h1s : L1.syllables = 5) (h1p : L1.position = some LinePosition.first)
    (h2s : L2.syllables = 5) (h2p : L2.position = some LinePosition.last)
    (h3s : L3.syllables = 7) :
    generate_random_haiku db o now ctx none none =
      Except.ok (some (Haiku.from_lines [L1, L3, L2] ctx now),
        { db with poems := db.poems ++ [haikuToPoem (Haiku.from_lines [L1, L3, L2] ctx now)] }) := by
  have hne12 : L1 ≠ L2 := by
    intro hc
    rw [hc, h2p] at h1p
    exact absurd h1p (by simp)
  -- the matched rows of the two sample filters
  have hfilter5 : matchingLines db (firstFivesReq ctx none none) =
      (db.lines.filter (fun l => decide (l.context.team_id = ctx.team_id))).filter
        (fun l => decide (l.syllables = 5)) := by
    unfold matchingLines
    rw [List.filter_filter]
    apply List.filter_congr
    intro l _
    unfold lineMatches firstFivesReq
    simp [Bool.and_comm]
  have hfilter7 : matchingLines db (firstSevenReq ctx none none) =
      (db.lines.filter (fun l => decide (l.context.team_id = ctx.team_id))).filter
        (fun l => decide (l.syllables = 7)) := by
    unfold matchingLines
    rw [List.filter_filter]
    apply List.filter_congr
    intro l _
    unfold lineMatches firstSevenReq
    simp [Bool.and_comm]
  have hm5 : (matchingLines db (firstFivesReq ctx none none)).Perm [L1, L2] := by
    rw [hfilter5]
    have := hperm.filter (fun l => decide (l.syllables = 5))
    simpa [h1s, h2s, h3s] using this
  have hm7 : (matchingLines db (firstSevenReq ctx none none)).Perm [L3] := by
    rw [hfilter7]
    have := hperm.filter (fun l => decide (l.syllables = 7))
    simpa [h1s, h2s, h3s] using this
  -- the exact samples
  obtain ⟨hnd5, hsub5, hlen5⟩ := hv (firstFivesReq ctx none none)
  obtain ⟨hnd7, hsub7, hlen7⟩ := hv (firstSevenReq ctx none none)
  have ho5 : o (firstFivesReq ctx none none) = [L1, L2] ∨
      o (firstFivesReq ctx none none) = [L2, L1] := by
    refine pair_eq hnd5 ?_ ?_
    · rw [hlen5, hm5.length_eq]
      rfl
    · intro x hx
      have hx2 := hm5.mem_iff.mp (hsub5 x hx)
      simpa using hx2
  have ho7 : o (firstSevenReq ctx none none) = [L3] := by
    refine singleton_eq ?_ ?_
    · rw [hlen7, hm7.length_eq]
      rfl
    · intro x hx
      have hx2 := hm7.mem_iff.mp (hsub7 x hx)
      simpa using hx2
  -- evaluate the five-line pass
  have hfives : get_random_fives db o ctx none none = Except.ok (true, [L1, L2]) := by
    rcases ho5 with ho | ho
    · simp only [get_random_fives]
      rw [grl_firstFives, ho]
      simp only [List.isEmpty_cons, List.length_cons, List.length_nil]
      norm_num
      unfold selectFives selectFivesAfterFirst
      simp [List.find?, notLastB, notFirstB, h1p, h2p, pyRemove, removeFirst, hne12]
    · simp only [get_random_fives]
      rw [grl_firstFives, ho]
      simp only [List.isEmpty_cons, List.length_cons, List.length_nil]
      norm_num
      unfold selectFives selectFivesAfterFirst
      simp [List.find?, notLastB, notFirstB, h1p, h2p, pyRemove, removeFirst, hne12,
        Ne.symm hne12]
  -- evaluate the seven-line pass
  have hseven : get_random_seven db o ctx none none = (true, some L3) := by
    unfold get_random_seven
    rw [grl_firstSeven, ho7]
  -- assemble
  unfold generate_random_haiku
  rw [hfives]
  simp [hseven]

/-- Witness for C5: the concrete Scenario-B repository (stored in the order
L2, L1, L3) deterministically yields the poem [L1, L3, L2]. -/
theorem C5_witness :
    generate_random_haiku scenarioBDB (canonicalOracle scenarioBDB) 0 ctxT none none =
      Except.ok
        (some (Haiku.from_lines [mkLine "l1" 5 "u" (some LinePosition.first) 1,
          mkLine "l3" 7 "u" none 3, mkLine "l2" 5 "u" (some LinePosition.last) 2] ctxT 0),
         { scenarioBDB with
            poems := [haikuToPoem (Haiku.from_lines
              [mkLine "l1" 5 "u" (some LinePosition.first) 1, mkLine "l3" 7 "u" none 3,
               mkLine "l2" 5 "u" (some LinePosition.last) 2] ctxT 0)] }) :=
  C5_scenario_b scenarioBDB (canonicalOracle scenarioBDB) 0 ctxT
    (mkLine "l1" 5 "u" (some LinePosition.first) 1)
    (mkLine "l2" 5 "u" (some LinePosition.last) 2)
    (mkLine "l3" 7 "u" none 3)
    (canonical_valid scenarioBDB (by decide))
    (by decide) rfl rfl rfl rfl rfl
